import Mathlib

/-
  Verification of the multi-signal context reranking engine
  (fancy_retriever): a shallow embedding of the reranking pipeline.

  Sources embedded here:
    src/src/reranking/enhanced_combined_reranker.py
    src/src/reranking/code_structure_reranker.py
    src/src/reranking/signature_reranker.py
    src/src/reranking/semantic_reranker.py
    src/src/reranking/reranker.py
    src/function_relationship_analyzer.py
    src/ast_component_extractor.py

  Modelling conventions:
  - Python floats are modelled as rationals; all score arithmetic in the
    source is plain +, -, *, / on floats, which these rationals mirror
    exactly on the decimal constants the code uses.
  - Python strings are modelled as `List Char` (Lean's `String.toLower`
    does not reduce well in the kernel; `Char.toLower` does).
  - Python dict-based records are modelled as structures whose fields are
    exactly the keys the embedded code reads or writes; a key that the
    pipeline always installs before use is a plain field, a key whose
    presence is branched on is an `Option`.
  - Code that can raise (mixed-type comparisons, string + float) is
    modelled in the `Except String` monad; the message stands for the
    Python exception.
-/

/-! ## Generic sequence utilities (models of Python str/list operations) -/

/-- Model of Python `str.startswith` / list equality on an initial segment:
    `leadsWith a b` is true when `a` is an initial segment of `b`. -/
def leadsWith {α : Type} [DecidableEq α] : List α → List α → Bool
  | [], _ => true
  | _ :: _, [] => false
  | a :: as, b :: bs => if a = b then leadsWith as bs else false

/-- Model of Python `a in b` for strings: contiguous-subsequence containment
    (the empty sequence is contained in everything, as in Python). -/
def occursIn {α : Type} [DecidableEq α] (needle : List α) : List α → Bool
  | [] => leadsWith needle []
  | b :: bs => leadsWith needle (b :: bs) || occursIn needle bs

/-- Model of Python `str.find`: index of the first occurrence, `none` when
    absent (Python returns -1; every caller embedded here guards on
    containment first, so the `Option` is equivalent). -/
def findSeqAt {α : Type} [DecidableEq α] (needle : List α) : List α → Option Nat
  | [] => if leadsWith needle [] then some 0 else none
  | b :: bs =>
      if leadsWith needle (b :: bs) then some 0
      else (findSeqAt needle bs).map (· + 1)

/-- Lowercasing, the model of Python `str.lower` (per-character). -/
def lowerSeq (s : List Char) : List Char := s.map Char.toLower

/-- Python `\w` word character: letter, digit or underscore. -/
def isWordChar (c : Char) : Bool := c.isAlphanum || c = '_'

/-- Boundary test before a match position for the regex `\b`. -/
def boundaryBefore : Option Char → Bool
  | none => true
  | some p => !isWordChar p

/-- Boundary test after a match for the regex `\b`. -/
def boundaryAfter : List Char → Bool
  | [] => true
  | c :: _ => !isWordChar c

/-- Word match at the head of `t` (literal word plus trailing `\b`). -/
def wordAt (w : List Char) (t : List Char) : Bool :=
  leadsWith w t && boundaryAfter (t.drop w.length)

/-- Scan for `\b<w>\b` keeping track of the previous character. -/
def wordOccursFrom (w : List Char) : Option Char → List Char → Bool
  | _, [] => false
  | prev, c :: rest =>
      (boundaryBefore prev && wordAt w (c :: rest)) || wordOccursFrom w (some c) rest

/-- Model of `re.search(r'\breturn\b', text)` as used by the signature
    reranker (src/src/reranking/signature_reranker.py line 105). -/
def hasWordReturn (t : List Char) : Bool :=
  wordOccursFrom ("return".data) none t

/-- Lowercase ASCII letter test, the character class of `re.findall(r'[a-z]+', s)`. -/
def isLowerAlpha (c : Char) : Bool := 'a' ≤ c && c ≤ 'z'

/-- Accumulator-based splitting into maximal `[a-z]+` runs. -/
def alphaRunsAux : List Char → List Char → List (List Char)
  | acc, [] => if acc.isEmpty then [] else [acc.reverse]
  | acc, c :: rest =>
      if isLowerAlpha c then alphaRunsAux (c :: acc) rest
      else if acc.isEmpty then alphaRunsAux acc rest
      else acc.reverse :: alphaRunsAux [] rest

/-- Model of `re.findall(r'[a-z]+', s)`: the maximal runs of lowercase
    letters, in order (possibly with duplicates, exactly like `findall`). -/
def alphaRuns (s : List Char) : List (List Char) := alphaRunsAux [] s

/-- Cardinality of `set(a)`: number of distinct elements of `a`. -/
def setCard {α : Type} [DecidableEq α] (a : List α) : Nat := a.dedup.length

/-- Cardinality of `set(a) & set(b)`: distinct elements of `a` also in `b`. -/
def interCard {α : Type} [DecidableEq α] (a b : List α) : Nat :=
  ((a.dedup).filter (fun x => decide (x ∈ b))).length

/-- `len(text.split(chr(10)))`: line count of a Python string. -/
def pyLineCount (t : List Char) : Nat := t.count '\n' + 1

/-! ## Data model

`Components` is the FeatureRecord produced by
`ASTComponentExtractor.extract_components` (src/ast_component_extractor.py
lines 18-41): the fields are exactly the keys of the components dict that
the embedded code reads or writes. -/

structure Components where
  function_name : List Char := []
  parameters : List (List Char) := []
  return_type : Option (List Char) := none
  has_docstring : Bool := false
  docstring : List Char := []
  imports : List (List Char) := []
  from_imports : List (List Char) := []
  if_count : Nat := 0
  else_count : Nat := 0
  for_count : Nat := 0
  while_count : Nat := 0
  try_count : Nat := 0
  except_count : Nat := 0
  function_calls : List (List Char) := []
  functions_defined : List (List Char) := []
  classes_defined : List (List Char) := []
  line_count : Nat := 1
  complexity : ℚ := 0
  error_handling : Bool := false
  text : List Char := []
deriving DecidableEq

/-- The IntentRecord produced by `QueryIntentExtractor.extract_intent`
(src/query_intent_extractor.py lines 34-45).  Empty list / `false` model a
Python-falsy or absent value, matching every truthiness guard in the
embedded code. -/
structure QueryIntent where
  function_name : List Char := []
  parameters : List (List Char) := []
  potential_names : List (List Char) := []
  has_docstring : Bool := false
  has_return : Bool := false
  return_value_has_return : Bool := false
  error_handling : Bool := false
  algorithm_description : List (List Char) := []
  key_functions : List (List Char) := []
  domain : List Char := []
  complexity : List Char := []
deriving DecidableEq

/-- One retrieved context as the orchestrator sees it after preprocessing:
score, text, extracted components and the enumerated named score fields
(all default 0, matching absent dict keys read with `.get(key, 0)`). -/
structure Context where
  score : ℚ := 0
  final_score : ℚ := 0
  text : List Char := []
  components : Components := {}
  name_match_boost : ℚ := 0
  structure_score : ℚ := 0
  signature_score : ℚ := 0
  semantic_score : ℚ := 0
  quality_boost : ℚ := 0
  normalized_score : ℚ := 0
deriving DecidableEq

/-! ## Component extractor: complexity metric and body analysis -/

/-- Round-half-to-even on rationals: the model of Python `round` (a tie at
the midpoint rounds to the even integer). -/
def roundHalfEven (x : ℚ) : ℤ :=
  let f : ℤ := ⌊x⌋
  let r : ℚ := x - f
  if r < 1/2 then f
  else if 1/2 < r then f + 1
  else if f % 2 = 0 then f else f + 1

/-- Model of Python `round(x, 1)`. -/
def pyRound1 (x : ℚ) : ℚ := (roundHalfEven (x * 10) : ℚ) / 10

/-- The raw complexity sum of `ASTComponentExtractor._compute_complexity`
(src/ast_component_extractor.py lines 154-168), before rounding. -/
def complexityFormula (c : Components) : ℚ :=
  (c.if_count : ℚ) + (c.for_count : ℚ) * 2 + (c.while_count : ℚ) * 2
    + (c.try_count : ℚ) + (c.except_count : ℚ) * (1/2)
    + (c.function_calls.length : ℚ) * (1/2) + (c.parameters.length : ℚ) * (1/2)
    + (c.line_count : ℚ) * (1/10)

/-- `ASTComponentExtractor._compute_complexity`: writes the rounded
complexity metric into the record.  Both extraction paths finish by calling
this (src/ast_component_extractor.py lines 51 and 247). -/
def computeComplexity (c : Components) : Components :=
  { c with complexity := pyRound1 (complexityFormula c) }

/-- AST nodes that `_analyze_function_body` distinguishes while walking the
(first top-level) function: everything else is `otherNode`.  A list of
`PyNode` stands for the node sequence produced by `ast.walk`. -/
inductive PyNode where
  | ifStmt
  | forStmt
  | whileStmt
  | tryStmt
  | exceptHandler
  | callExpr (nm : Option (List Char))
  | otherNode
deriving DecidableEq

/-- One step of `ASTComponentExtractor._analyze_function_body`
(src/ast_component_extractor.py lines 126-152): counts control-flow nodes,
sets `error_handling` on `Try` or `ExceptHandler`, and collects new
function-call names not defined locally. -/
def analyzeStep (c : Components) (n : PyNode) : Components :=
  match n with
  | .ifStmt => { c with if_count := c.if_count + 1 }
  | .forStmt => { c with for_count := c.for_count + 1 }
  | .whileStmt => { c with while_count := c.while_count + 1 }
  | .tryStmt => { c with try_count := c.try_count + 1, error_handling := true }
  | .exceptHandler => { c with except_count := c.except_count + 1, error_handling := true }
  | .callExpr nm =>
      match nm with
      | some f =>
          if f ∉ c.function_calls ∧ f ∉ c.functions_defined then
            { c with function_calls := c.function_calls ++ [f] }
          else c
      | none => c
  | .otherNode => c

/-- `ASTComponentExtractor._analyze_function_body`: fold of `analyzeStep`
over the walked nodes of the function body (the primary, AST path). -/
def analyzeFunctionBody (nodes : List PyNode) (c : Components) : Components :=
  nodes.foldl analyzeStep c

/-! ## Signature scorer (src/src/reranking/signature_reranker.py) -/

/-- Token-overlap similarity used by the signature scorer: the two names are
lowercased, split into `[a-z]+` runs, and the score is the number of shared
distinct tokens over the number of distinct query tokens (0 when either
token set is empty) — lines 37-42 of signature_reranker.py. -/
def tokenOverlapSim (queryLower ctxLower : List Char) : ℚ :=
  let qT := alphaRuns queryLower
  let cT := alphaRuns ctxLower
  if qT ≠ [] ∧ cT ≠ [] then (interCard qT cT : ℚ) / (setCard qT : ℚ) else 0

/-- Function-name block of `compute_signature_similarity`
(signature_reranker.py lines 24-62), returning
(score contribution, weight contribution).  The weight is 2.0 whenever the
intent carries a function name or potential names; exact match earns full
weight, a one-directional substring match 0.8 (0.7 for potential names),
otherwise the token-overlap tier scaled by 0.5. -/
def sigNameScore (ctx : Components) (intent : QueryIntent) : ℚ × ℚ :=
  let cf := lowerSeq ctx.function_name
  if intent.function_name ≠ [] then
    let qf := lowerSeq intent.function_name
    if cf = qf then (2, 2)
    else if occursIn qf cf then (2 * (8/10), 2)
    else (2 * tokenOverlapSim qf cf * (1/2), 2)
  else if intent.potential_names ≠ [] then
    if intent.potential_names.any (fun n => lowerSeq n = cf) then (2, 2)
    else if intent.potential_names.any (fun n => occursIn (lowerSeq n) cf) then (2 * (7/10), 2)
    else
      let maxSim := (intent.potential_names.map (fun n => tokenOverlapSim (lowerSeq n) cf)).foldl max 0
      (2 * maxSim * (1/2), 2)
  else (0, 0)

/-- Parameter block of `compute_signature_similarity`
(signature_reranker.py lines 64-88): set equality earns full weight,
otherwise 0.7 × distinct-name overlap + 0.3 × positional match rate. -/
def sigParamScore (ctx : Components) (intent : QueryIntent) : ℚ × ℚ :=
  if intent.parameters ≠ [] then
    let cp := ctx.parameters
    let qp := intent.parameters
    if qp ≠ [] ∧ cp ≠ [] then
      if cp.toFinset = qp.toFinset then (2, 2)
      else
        let paramSim : ℚ := (interCard cp qp : ℚ) / (setCard qp : ℚ)
        let posMatches : Nat := ((qp.zip cp).filter (fun p => decide (p.1 = p.2))).length
        let posSim : ℚ := (posMatches : ℚ) / (qp.length : ℚ)
        (2 * ((7/10) * paramSim + (3/10) * posSim), 2)
    else (0, 2)
  else (0, 0)

/-- Test for a docstring in raw text as the signature scorer does it
(signature_reranker.py lines 95-97): a triple-quote delimiter occurring,
and occurring again after the first occurrence plus 3 characters. -/
def hasTwoDelims (d t : List Char) : Bool :=
  match findSeqAt d t with
  | none => false
  | some i => occursIn d (t.drop (i + 3))

/-- The docstring delimiters checked by the signature scorer. -/
def dqDelim : List Char := ['\"', '\"', '\"']

def sqDelim : List Char := ['\x27', '\x27', '\x27']

/-- Docstring block of `compute_signature_similarity` (lines 90-99). -/
def sigDocScore (ctx : Components) (intent : QueryIntent) : ℚ × ℚ :=
  if intent.has_docstring then
    (if hasTwoDelims dqDelim ctx.text || hasTwoDelims sqDelim ctx.text then 1 else 0, 1)
  else (0, 0)

/-- Return-statement block of `compute_signature_similarity` (lines 101-105). -/
def sigReturnScore (ctx : Components) (intent : QueryIntent) : ℚ × ℚ :=
  if intent.has_return then
    (if hasWordReturn ctx.text then 1 else 0, 1)
  else (0, 0)

/-- Error-handling block of `compute_signature_similarity` (lines 107-112). -/
def sigErrorScore (ctx : Components) (intent : QueryIntent) : ℚ × ℚ :=
  if intent.error_handling then
    (if 0 < ctx.try_count ∧ 0 < ctx.except_count then (12/10) else 0, 12/10)
  else (0, 0)

/-- `SignatureReranker.compute_signature_similarity`
(signature_reranker.py lines 14-114): the weighted sum of the five blocks
divided by the total applied weight, 0 when no block applied. -/
def computeSignatureSimilarity (ctx : Components) (intent : QueryIntent) : ℚ :=
  let n := sigNameScore ctx intent
  let p := sigParamScore ctx intent
  let d := sigDocScore ctx intent
  let r := sigReturnScore ctx intent
  let e := sigErrorScore ctx intent
  let score := n.1 + p.1 + d.1 + r.1 + e.1
  let total := n.2 + p.2 + d.2 + r.2 + e.2
  if 0 < total then score / total else 0

/-! ## Structure scorer (src/src/reranking/code_structure_reranker.py)

The control-flow feature list of `compute_structure_similarity` (lines
34-37) mixes the six integer counters with `function_calls`, whose value in
every record built by the component extractor is a list of names.  The
comparison code (lines 47-51) applies `max` and `> 0` to these values, so
the dictionary values are modelled dynamically. -/

/-- A value read out of a components dict for a control-flow feature:
either a number or a list of strings. -/
inductive PyFeatVal where
  | num (q : ℚ)
  | lst (xs : List (List Char))
deriving DecidableEq

/-- Lexicographic comparison of char lists (Python string `<`). -/
def charListLt : List Char → List Char → Bool
  | [], [] => false
  | [], _ :: _ => true
  | _ :: _, [] => false
  | a :: as, b :: bs => if a < b then true else if b < a then false else charListLt as bs

/-- Lexicographic comparison of lists of strings (Python list `<`). -/
def strListLt : List (List Char) → List (List Char) → Bool
  | [], [] => false
  | [], _ :: _ => true
  | _ :: _, [] => false
  | a :: as, b :: bs =>
      if charListLt a b then true
      else if charListLt b a then false
      else strListLt as bs

/-- Python `max(a, b)`: succeeds on two numbers or two lists, raises
`TypeError` on a number/list mix. -/
def pyFeatMax : PyFeatVal → PyFeatVal → Except String PyFeatVal
  | .num a, .num b => .ok (.num (if a < b then b else a))
  | .lst a, .lst b => .ok (.lst (if strListLt a b then b else a))
  | _, _ => .error "TypeError: unorderable operand types for max"

/-- Python `v > 0`: raises `TypeError` when `v` is a list. -/
def pyFeatGtZero : PyFeatVal → Except String Bool
  | .num a => .ok (decide (0 < a))
  | .lst _ => .error "TypeError: unorderable types list and int"

/-- `1.0 - abs(a - b) / max_value` for numeric feature values (the only
arm reachable after `pyFeatGtZero` succeeds). -/
def pyFeatDiffSim : PyFeatVal → PyFeatVal → PyFeatVal → Except String ℚ
  | .num a, .num b, .num m => .ok (1 - |a - b| / m)
  | _, _, _ => .error "TypeError: unsupported operand types"

/-- One iteration of the control-flow loop of
`compute_structure_similarity` (code_structure_reranker.py lines 39-53). -/
def featSim (cv av : PyFeatVal) : Except String ℚ := do
  let m ← pyFeatMax cv av
  let gt ← pyFeatGtZero m
  if gt then pyFeatDiffSim cv av m else pure 1

/-- The control-flow loop: accumulates score and total weight (each feature
weighted 0.5), propagating any exception. -/
def structFeatLoop : List (PyFeatVal × PyFeatVal) → ℚ → ℚ → Except String (ℚ × ℚ)
  | [], s, t => .ok (s, t)
  | (cv, av) :: rest, s, t => do
      let sim ← featSim cv av
      structFeatLoop rest (s + (1/2) * sim) (t + 1/2)

/-- The dict lookups `components.get(feature, 0)` for the seven features of
the `control_flow_features` list (code_structure_reranker.py lines 34-37),
in list order; `function_calls` is a list value in every extractor record. -/
def structControlFeats (c : Components) : List PyFeatVal :=
  [.num c.if_count, .num c.else_count, .num c.for_count, .num c.while_count,
   .num c.try_count, .num c.except_count, .lst c.function_calls]

/-- `CodeStructureReranker.compute_structure_similarity`
(code_structure_reranker.py lines 18-78) over two full extractor records:
the control-flow loop, then the import-overlap term (weight 1.5, only when
the answer has imports), then the line-count term (weight 0.3), and the
final division by the total weight. -/
def computeStructureSimilarity (ctx ans : Components) : Except String ℚ := do
  let st ← structFeatLoop ((structControlFeats ctx).zip (structControlFeats ans)) 0 0
  let ctxImports := (ctx.imports ++ ctx.from_imports).dedup
  let ansImports := (ans.imports ++ ans.from_imports).dedup
  let st2 :=
    if ansImports ≠ [] then
      (st.1 + (3/2) * ((interCard ctxImports ansImports : ℚ) / (setCard ansImports : ℚ)),
       st.2 + 3/2)
    else st
  let m := max ctx.line_count ans.line_count
  let lcSim ←
    if 0 < m then
      pure (1 - |(ctx.line_count : ℚ) - (ans.line_count : ℚ)| / (m : ℚ))
    else Except.error "ZeroDivisionError: division by zero"
  let s := st2.1 + (3/10) * lcSim
  let t := st2.2 + 3/10
  pure (if 0 < t then s / t else 0)

/-! ## Per-context score updates of the three scorer stages

Each scorer's `rerank` loops over the contexts, stores its raw score and
updates `final_score`.  After `_preprocess_contexts` every context carries
a `final_score` key, so the `if final_score in ctx` branches of the
signature and semantic rerankers take the then-arm on the pipeline path;
the raw similarity value is a parameter here. -/

/-- `CodeStructureReranker.rerank`, per context
(code_structure_reranker.py lines 95-98): stores the raw score and OVERWRITES
`final_score` with `score + weight * structure_score`. -/
def structureUpdateCtx (w raw : ℚ) (c : Context) : Context :=
  { c with structure_score := raw, final_score := c.score + w * raw }

/-- `SignatureReranker.rerank`, per context (signature_reranker.py lines
124-130): stores the raw score and adds `weight * signature_score` to the
existing `final_score`. -/
def signatureUpdateCtx (w raw : ℚ) (c : Context) : Context :=
  { c with signature_score := raw, final_score := c.final_score + w * raw }

/-- `SemanticReranker.rerank`, per context (semantic_reranker.py lines
151-159): stores the raw score and adds `weight * semantic_score` to the
existing `final_score`. -/
def semanticUpdateCtx (w raw : ℚ) (c : Context) : Context :=
  { c with semantic_score := raw, final_score := c.final_score + w * raw }

/-! ## Function relationship analyzer (src/function_relationship_analyzer.py) -/

/-- A function's role in the per-call call graph. -/
inductive Role where
  | main
  | helper
  | utility
  | general
deriving DecidableEq

/-- Per-function call-graph statistics: incoming-call count, outgoing-call
count, docstring flag and body line count, as gathered by
`_build_call_graph` and `_collect_function_signatures`. -/
structure FuncStats where
  incoming : Nat := 0
  outgoing : Nat := 0
  has_docstring : Bool := false
  line_count : Nat := 0
deriving DecidableEq

/-- `FunctionRelationshipAnalyzer._determine_function_roles`
(function_relationship_analyzer.py lines 137-152): the first matching rule
of the if/elif chain wins. -/
def determineRole (s : FuncStats) : Role :=
  if 0 < s.incoming ∧ s.outgoing = 0 ∧ s.line_count ≤ 10 then .helper
  else if s.incoming = 0 ∧ 0 < s.outgoing ∧ s.has_docstring then .main
  else if s.incoming = 0 ∧ s.outgoing = 0 ∧ s.line_count ≤ 5 then .utility
  else .general

/-- `self.function_roles.get(name, general)`: role lookup with the
`general` default used by `boost_main_functions`. -/
def lookupRole (roles : List (List Char × Role)) (name : List Char) : Role :=
  match roles.find? (fun p => decide (p.1 = name)) with
  | some p => p.2
  | none => .general

/-- `FunctionRelationshipAnalyzer.boost_main_functions`, per context
(function_relationship_analyzer.py lines 174-183): +0.1 for a main
function, -0.05 for a helper, everything else (including an empty
function name) untouched. -/
def boostMainFunctionsCtx (roles : List (List Char × Role)) (c : Context) : Context :=
  let nm := c.components.function_name
  if nm ≠ [] then
    match lookupRole roles nm with
    | .main => { c with final_score := c.final_score + 1/10 }
    | .helper => { c with final_score := c.final_score - 1/20 }
    | _ => c
  else c

/-- `boost_main_functions` over the whole batch. -/
def boostMainFunctions (roles : List (List Char × Role)) (l : List Context) : List Context :=
  l.map (boostMainFunctionsCtx roles)

/-! ## Orchestrator preprocessing (enhanced_combined_reranker.py lines 113-145) -/

/-- `EnhancedCombinedReranker._preprocess_contexts`, per context: sets
`final_score` to the retrieval score and applies the first matching
name-match boost rule (exact +0.3, substring either direction +0.15, any
potential-name match +0.1, else 0); no boost logic runs when the intent
has no function name. -/
def preprocessCtx (intent : QueryIntent) (c : Context) : Context :=
  let base := { c with final_score := c.score }
  if intent.function_name ≠ [] then
    let cf := lowerSeq c.components.function_name
    let qf := lowerSeq intent.function_name
    if cf = qf then
      { base with name_match_boost := 3/10, final_score := base.final_score + 3/10 }
    else if occursIn qf cf || occursIn cf qf then
      { base with name_match_boost := 15/100, final_score := base.final_score + 15/100 }
    else if intent.potential_names.any
        (fun n => occursIn (lowerSeq n) cf || occursIn cf (lowerSeq n)) then
      { base with name_match_boost := 1/10, final_score := base.final_score + 1/10 }
    else { base with name_match_boost := 0 }
  else base

/-- `_preprocess_contexts` over the whole batch. -/
def preprocessContexts (intent : QueryIntent) (l : List Context) : List Context :=
  l.map (preprocessCtx intent)

/-! ## Score normalization (enhanced_combined_reranker.py lines 193-209) -/

/-- Python `max` over a nonempty score list (the `[]` arm is unreachable:
`_normalize_scores` returns early on an empty batch). -/
def maxQ : List ℚ → ℚ
  | [] => 0
  | x :: xs => xs.foldl max x

/-- Python `min` over a nonempty score list. -/
def minQ : List ℚ → ℚ
  | [] => 0
  | x :: xs => xs.foldl min x

/-- The per-context rescaling applied when `max_score > min_score`:
`(final_score - min) / (max - min)`, stored in both `normalized_score`
and `final_score`. -/
def rescaleCtx (lo hi : ℚ) (c : Context) : Context :=
  let ns := (c.final_score - lo) / (hi - lo)
  { c with normalized_score := ns, final_score := ns }

/-- `EnhancedCombinedReranker._normalize_scores`: min-max normalization of
`final_score` across the batch; a batch whose scores all coincide (or an
empty batch) is returned unchanged. -/
def normalizeScores (l : List Context) : List Context :=
  match l with
  | [] => l
  | _ :: _ =>
      let scores := l.map (·.final_score)
      let hi := maxQ scores
      let lo := minQ scores
      if lo < hi then l.map (rescaleCtx lo hi) else l

/-! ## Final sort (enhanced_combined_reranker.py line 107)

`sorted(contexts, key=final_score, reverse=True)` is Python's stable sort
under the descending comparison: an element moves before another exactly
when its key is strictly greater, and equal keys keep their input order.
The insertion sort below implements exactly that specification (a stable
sort is determined by it up to extensional equality). -/

/-- Stable descending insertion: `x` (earlier in the input) goes before the
first element whose `final_score` does not exceed it, hence before every
element of equal score. -/
def insertDesc (x : Context) : List Context → List Context
  | [] => [x]
  | y :: ys =>
      if y.final_score ≤ x.final_score then x :: y :: ys
      else y :: insertDesc x ys

/-- Model of `sorted(contexts, key=lambda x: x.get(final_score, 0.0),
reverse=True)`: stable descending sort by `final_score`. -/
def sortByFinalDesc : List Context → List Context
  | [] => []
  | x :: xs => insertDesc x (sortByFinalDesc xs)

/-! ## Dynamic score values and coercion (reranker.py lines 30-39,
enhanced_combined_reranker.py lines 113-143)

A context's `score` can arrive as a number or as a text string.  The base
`Reranker.rerank` coerces strings with `float(...)`, defaulting to 0.0 on
failure; `EnhancedCombinedReranker._preprocess_contexts` performs no such
coercion and copies the value into `final_score` as is, where a
name-match boost addition on a string raises `TypeError`. -/

/-- A dynamically typed score value. -/
inductive PyVal where
  | num (q : ℚ)
  | str (s : List Char)
deriving DecidableEq

/-- Digits-to-nat helper for the float parser. -/
def digitsVal : List Char → Nat → Nat
  | [], acc => acc
  | c :: rest, acc => digitsVal rest (acc * 10 + (c.toNat - '0'.toNat))

/-- Model of Python `float(s)` on plain decimal literals: optional sign,
integer digits, optional fractional digits; `none` models `ValueError`. -/
def parseFloatQ (s : List Char) : Option ℚ :=
  let core : List Char → Option ℚ := fun t =>
    let intPart := t.takeWhile (·.isDigit)
    let rest := t.drop intPart.length
    match rest with
    | [] => if intPart = [] then none else some (digitsVal intPart 0 : ℚ)
    | '.' :: frac =>
        if frac.all (·.isDigit) ∧ (intPart ≠ [] ∨ frac ≠ []) then
          some ((digitsVal intPart 0 : ℚ)
            + (digitsVal frac 0 : ℚ) / ((10 : ℚ) ^ frac.length))
        else none
    | _ => none
  match s with
  | '-' :: t => (core t).map (fun q => -q)
  | '+' :: t => core t
  | t => core t

/-- The string-score coercion of the base `Reranker.rerank` (reranker.py
lines 32-36): `float(ctx.score)` with a safe default of 0.0 on failure;
numeric scores pass through. -/
def coerceScore (v : PyVal) : PyVal :=
  match v with
  | .str s => .num ((parseFloatQ s).getD 0)
  | .num q => .num q

/-- Python `v + q` for a dynamic value and a float: raises `TypeError`
when `v` is a string. -/
def pyAddFloat (v : PyVal) (q : ℚ) : Except String PyVal :=
  match v with
  | .num x => .ok (.num (x + q))
  | .str _ => .error "TypeError: can only concatenate str to str"

/-- A context before preprocessing, with dynamically typed and possibly
absent score fields. -/
structure PyCtx where
  score : Option PyVal := none
  final_score : Option PyVal := none
  name_match_boost : Option ℚ := none
  func_name : List Char := []
deriving DecidableEq

/-- `EnhancedCombinedReranker._preprocess_contexts` per context, at the
dynamic level (enhanced_combined_reranker.py lines 115-143): a missing
score defaults to 0.0, `final_score` is set to the score value WITHOUT
string coercion, and a matching name-boost rule then adds a float to it
(raising `TypeError` on a string score). -/
def pyPreprocessCtx (intent : QueryIntent) (c : PyCtx) : Except String PyCtx := do
  let sc := c.score.getD (.num 0)
  let base : PyCtx := { c with score := some sc, final_score := some sc }
  if intent.function_name ≠ [] then
    let cf := lowerSeq c.func_name
    let qf := lowerSeq intent.function_name
    if cf = qf then do
      let fs ← pyAddFloat sc (3/10)
      pure { base with name_match_boost := some (3/10), final_score := some fs }
    else if occursIn qf cf || occursIn cf qf then do
      let fs ← pyAddFloat sc (15/100)
      pure { base with name_match_boost := some (15/100), final_score := some fs }
    else if intent.potential_names.any
        (fun n => occursIn (lowerSeq n) cf || occursIn cf (lowerSeq n)) then do
      let fs ← pyAddFloat sc (1/10)
      pure { base with name_match_boost := some (1/10), final_score := some fs }
    else pure { base with name_match_boost := some 0 }
  else pure base

/-! ## Helper lemmas -/

lemma roundHalfEven_intCast (n : ℤ) : roundHalfEven (n : ℚ) = n := by
  unfold roundHalfEven
  simp only [Int.floor_intCast, sub_self]
  norm_num

lemma pyRound1_of_mul_ten_int (x : ℚ) (n : ℤ) (h : x * 10 = (n : ℚ)) :
    pyRound1 x = x := by
  unfold pyRound1
  rw [h, roundHalfEven_intCast]
  have h10 : (10 : ℚ) ≠ 0 := by norm_num
  field_simp
  linarith [h]

/-! ## C7: the complexity metric -/

/-- C7: for every feature record, `_compute_complexity` sets `complexity`
to `if_count + 2*for_count + 2*while_count + try_count + 0.5*except_count
+ 0.5*len(function_calls) + 0.5*len(parameters) + 0.1*line_count`, rounded
to one decimal place; since ten times that sum is always an integer, the
rounding is exact.  Both extraction paths (AST and regex fallback) call
this function as their final step (src/ast_component_extractor.py lines
51 and 247), so the equation holds on both. -/
theorem compute_complexity_formula (c : Components) :
    (computeComplexity c).complexity = pyRound1 (complexityFormula c) ∧
    pyRound1 (complexityFormula c) = complexityFormula c := by
  constructor
  · rfl
  · apply pyRound1_of_mul_ten_int (complexityFormula c)
      ((10 * c.if_count + 20 * c.for_count + 20 * c.while_count + 10 * c.try_count
        + 5 * c.except_count + 5 * c.function_calls.length + 5 * c.parameters.length
        + c.line_count : ℕ) : ℤ)
    unfold complexityFormula
    push_cast
    ring

/-! ## C1: how each scorer stage updates final_score -/

/-- C1 (amended): on the success path, the Signature and Semantic scorers
append their weighted raw score to the existing `final_score`, but the
Structure scorer does NOT append: it overwrites `final_score` with
`score + weight * structure_score`, discarding any earlier additive boost
(such as the preprocessing name-match boost).  Each stage records its raw
score under its own key. -/
theorem scorer_stage_final_score_updates (w raw : ℚ) (c : Context) :
    (signatureUpdateCtx w raw c).final_score = c.final_score + w * raw ∧
    (semanticUpdateCtx w raw c).final_score = c.final_score + w * raw ∧
    (structureUpdateCtx w raw c).final_score = c.score + w * raw ∧
    (signatureUpdateCtx w raw c).signature_score = raw ∧
    (semanticUpdateCtx w raw c).semantic_score = raw ∧
    (structureUpdateCtx w raw c).structure_score = raw :=
  ⟨rfl, rfl, rfl, rfl, rfl, rfl⟩

/-- C1 (counterexample): a context whose `final_score` already carries a
name-match boost (score 0.5, final_score 0.8) processed by the Structure
scorer at weight 1.2 with raw score 0.5 ends at 0.5 + 0.6 = 1.1, not at
0.8 + 0.6 = 1.4 as the append claim requires — `final_score` is reset by
a stage other than normalization. -/
theorem structure_reranker_resets_final_score_counterexample :
    ¬ ((structureUpdateCtx (6/5) (1/2) { score := 1/2, final_score := 4/5 }).final_score
        = ({ score := 1/2, final_score := 4/5 : Context }).final_score + (6/5) * (1/2)) := by
  simp only [structureUpdateCtx]
  norm_num

/-! ## C5: role classification and the role boost -/

/-- C5: `_determine_function_roles` assigns exactly one role by the first
matching rule — helper iff called at least once, calls nothing and the
body is at most 10 lines; main iff never called, calls at least one and
has a docstring; utility iff never called, calls nothing and the body is
at most 5 lines; general otherwise — and `boost_main_functions` adds 0.1
to `final_score` for a context whose extracted function name resolves to
role main, subtracts 0.05 for role helper, and returns every other
context unchanged (in particular one with an empty or unrecognized
function name, the latter resolving to the `general` default). -/
theorem function_role_classification_and_boost (s : FuncStats)
    (roles : List (List Char × Role)) (c : Context) :
    (determineRole s = Role.helper ↔
      0 < s.incoming ∧ s.outgoing = 0 ∧ s.line_count ≤ 10) ∧
    (determineRole s = Role.main ↔
      s.incoming = 0 ∧ 0 < s.outgoing ∧ s.has_docstring = true) ∧
    (determineRole s = Role.utility ↔
      s.incoming = 0 ∧ s.outgoing = 0 ∧ s.line_count ≤ 5) ∧
    (determineRole s = Role.general ↔
      ¬(0 < s.incoming ∧ s.outgoing = 0 ∧ s.line_count ≤ 10) ∧
      ¬(s.incoming = 0 ∧ 0 < s.outgoing ∧ s.has_docstring = true) ∧
      ¬(s.incoming = 0 ∧ s.outgoing = 0 ∧ s.line_count ≤ 5)) ∧
    (boostMainFunctionsCtx roles c =
      if c.components.function_name ≠ [] ∧
          lookupRole roles c.components.function_name = Role.main then
        { c with final_score := c.final_score + 1/10 }
      else if c.components.function_name ≠ [] ∧
          lookupRole roles c.components.function_name = Role.helper then
        { c with final_score := c.final_score - 1/20 }
      else c) := by
  refine ⟨?_, ?_, ?_, ?_, ?_⟩
  · unfold determineRole
    split_ifs with h1 h2 h3 <;> simp_all
  · unfold determineRole
    split_ifs with h1 h2 h3 <;> simp_all
  · unfold determineRole
    split_ifs with h1 h2 h3 <;> simp_all <;> omega
  · unfold determineRole
    split_ifs with h1 h2 h3 <;> simp_all
  · by_cases hn : c.components.function_name = []
    · simp [boostMainFunctionsCtx, hn]
    · cases hr : lookupRole roles c.components.function_name <;>
        simp [boostMainFunctionsCtx, hn, hr]

/-! ## C6: the preprocessing name-match boost -/

/-- C6: preprocessing sets every context's initial `final_score` to its
retrieval score plus the name-match boost of the first matching rule,
checked in order: case-insensitive exact equality with the intent's
function name +0.3, substring containment in either direction +0.15, a
match against any potential-name candidate +0.1, otherwise 0 (also when
the intent carries no function name). -/
theorem preprocess_name_match_boost (intent : QueryIntent) (c : Context) :
    (preprocessCtx intent c).final_score =
      c.score +
        (if intent.function_name ≠ [] then
          (if lowerSeq c.components.function_name = lowerSeq intent.function_name then
            3/10
          else if occursIn (lowerSeq intent.function_name) (lowerSeq c.components.function_name)
              || occursIn (lowerSeq c.components.function_name) (lowerSeq intent.function_name) then
            15/100
          else if intent.potential_names.any
              (fun n => occursIn (lowerSeq n) (lowerSeq c.components.function_name)
                || occursIn (lowerSeq c.components.function_name) (lowerSeq n)) then
            1/10
          else 0)
        else 0) := by
  by_cases h1 : intent.function_name = []
  · simp [preprocessCtx, h1]
  · by_cases h2 : lowerSeq c.components.function_name = lowerSeq intent.function_name
    · simp [preprocessCtx, h1, h2]
    · by_cases h3 : (occursIn (lowerSeq intent.function_name) (lowerSeq c.components.function_name)
          || occursIn (lowerSeq c.components.function_name) (lowerSeq intent.function_name)) = true
      · simp [preprocessCtx, h1, h2, h3]
      · by_cases h4 : (intent.potential_names.any
            (fun n => occursIn (lowerSeq n) (lowerSeq c.components.function_name)
              || occursIn (lowerSeq c.components.function_name) (lowerSeq n))) = true <;>
          simp [preprocessCtx, h1, h2, h3, h4]

/-! ## C3: the final sort -/

/-- Score-equality test used to state sort stability. -/
def scoreIs (v : ℚ) (c : Context) : Bool := decide (c.final_score = v)

lemma insertDesc_perm (x : Context) (l : List Context) :
    List.Perm (insertDesc x l) (x :: l) := by
  induction l with
  | nil => rfl
  | cons y ys ih =>
      simp only [insertDesc]
      split
      · exact List.Perm.refl _
      · exact (List.Perm.cons y ih).trans (List.Perm.swap x y ys)

lemma sortByFinalDesc_perm (l : List Context) : List.Perm (sortByFinalDesc l) l := by
  induction l with
  | nil => rfl
  | cons x xs ih =>
      simp only [sortByFinalDesc]
      exact (insertDesc_perm x (sortByFinalDesc xs)).trans (List.Perm.cons x ih)

lemma insertDesc_pairwise (x : Context) (l : List Context)
    (h : l.Pairwise (fun a b => b.final_score ≤ a.final_score)) :
    (insertDesc x l).Pairwise (fun a b => b.final_score ≤ a.final_score) := by
  induction l with
  | nil => simp [insertDesc]
  | cons y ys ih =>
      rw [List.pairwise_cons] at h
      obtain ⟨hy, hys⟩ := h
      simp only [insertDesc]
      split
      · rename_i hle
        refine List.Pairwise.cons ?_ (List.Pairwise.cons hy hys)
        intro z hz
        rcases List.mem_cons.mp hz with hzy | hzys
        · exact hzy ▸ hle
        · exact le_trans (hy z hzys) hle
      · rename_i hlt
        refine List.Pairwise.cons ?_ (ih hys)
        intro z hz
        have hz2 : z ∈ x :: ys := (insertDesc_perm x ys).mem_iff.mp hz
        rcases List.mem_cons.mp hz2 with hzx | hzys
        · exact hzx ▸ le_of_not_le hlt
        · exact hy z hzys

lemma insertDesc_filter (v : ℚ) (x : Context) (l : List Context) :
    (insertDesc x l).filter (scoreIs v) =
      if x.final_score = v then x :: l.filter (scoreIs v) else l.filter (scoreIs v) := by
  induction l with
  | nil => by_cases hx : x.final_score = v <;> simp [insertDesc, scoreIs, hx]
  | cons y ys ih =>
      simp only [insertDesc]
      split
      · simp [List.filter_cons, scoreIs]
      · rename_i hlt
        rw [List.filter_cons, ih, List.filter_cons]
        by_cases hx : x.final_score = v
        · have hy : ¬ y.final_score = v := by
            intro hyv
            exact hlt (le_of_eq (hyv.trans hx.symm))
          simp [scoreIs, hx, hy]
        · simp [scoreIs, hx]

/-- C3: the orchestrator's terminal step `sorted(contexts,
key=final_score, reverse=True)` (enhanced_combined_reranker.py line 107),
modelled by `sortByFinalDesc`, returns a permutation of the list entering
the sort in which `final_score` is non-increasing, and it is stable:
for every score value, the contexts carrying that value appear in exactly
the order they had entering the sort. -/
theorem final_sort_desc_stable_perm (l : List Context) :
    (sortByFinalDesc l).Pairwise (fun a b => b.final_score ≤ a.final_score) ∧
    List.Perm (sortByFinalDesc l) l ∧
    ∀ v : ℚ, (sortByFinalDesc l).filter (scoreIs v) = l.filter (scoreIs v) := by
  refine ⟨?_, sortByFinalDesc_perm l, ?_⟩
  · induction l with
    | nil => simp [sortByFinalDesc]
    | cons x xs ih => exact insertDesc_pairwise x _ ih
  · intro v
    induction l with
    | nil => rfl
    | cons x xs ih =>
        simp only [sortByFinalDesc]
        rw [insertDesc_filter, List.filter_cons]
        by_cases hx : x.final_score = v
        · simp [scoreIs, hx, ih]
        · simp [scoreIs, hx, ih]

/-! ## C4: min-max normalization -/

lemma foldl_max_const (v : ℚ) :
    ∀ (xs : List ℚ) (acc : ℚ), acc = v → (∀ a ∈ xs, a = v) → xs.foldl max acc = v := by
  intro xs
  induction xs with
  | nil => intro acc hacc _; simpa using hacc
  | cons a as ih =>
      intro acc hacc hall
      have ha : a = v := hall a (List.mem_cons_self a as)
      refine ih (max acc a) ?_ ?_
      · rw [hacc, ha, max_self]
      · intro b hb; exact hall b (List.mem_cons_of_mem a hb)

lemma foldl_min_const (v : ℚ) :
    ∀ (xs : List ℚ) (acc : ℚ), acc = v → (∀ a ∈ xs, a = v) → xs.foldl min acc = v := by
  intro xs
  induction xs with
  | nil => intro acc hacc _; simpa using hacc
  | cons a as ih =>
      intro acc hacc hall
      have ha : a = v := hall a (List.mem_cons_self a as)
      refine ih (min acc a) ?_ ?_
      · rw [hacc, ha, min_self]
      · intro b hb; exact hall b (List.mem_cons_of_mem a hb)

/-- The concrete three-context batch of the normalization scenario, with
final_scores [0.2, 0.5, 0.5]. -/
def batch3 : List Context :=
  [{ final_score := 2/10 }, { final_score := 5/10 }, { final_score := 5/10 }]

/-- A two-context batch whose scores coincide. -/
def batchConst : List Context := [{ final_score := 7/10 }, { final_score := 7/10 }]

/-- C4: `_normalize_scores` rescales `final_score` by min-max across the
batch whenever the scores are not all equal — in that case the output is
the pointwise rescale, the minimum maps to 0 and the maximum to 1; a batch
whose contexts all share one `final_score` is returned unchanged; and the
batch with final_scores [0.2, 0.5, 0.5] normalizes to [0.0, 1.0, 1.0]. -/
theorem normalize_scores_minmax_spec :
    (∀ l : List Context, l ≠ [] →
        minQ (l.map (·.final_score)) < maxQ (l.map (·.final_score)) →
        normalizeScores l =
          l.map (rescaleCtx (minQ (l.map (·.final_score))) (maxQ (l.map (·.final_score))))) ∧
    (∀ lo hi : ℚ, lo < hi →
        (∀ c : Context, c.final_score = lo → (rescaleCtx lo hi c).final_score = 0) ∧
        (∀ c : Context, c.final_score = hi → (rescaleCtx lo hi c).final_score = 1)) ∧
    (∀ (l : List Context) (v : ℚ), (∀ c ∈ l, c.final_score = v) → normalizeScores l = l) ∧
    (normalizeScores batch3).map (·.final_score) = [0, 1, 1] := by
  refine ⟨?_, ?_, ?_, ?_⟩
  · intro l hne hlt
    match l with
    | [] => exact absurd rfl hne
    | x :: xs =>
        simp only [normalizeScores]
        rw [if_pos hlt]
  · intro lo hi hlt
    have hne : hi - lo ≠ 0 := by linarith
    constructor
    · intro c hc
      simp [rescaleCtx, hc]
    · intro c hc
      simp only [rescaleCtx, hc]
      field_simp
  · intro l v hall
    match l with
    | [] => rfl
    | x :: xs =>
        have hmax : maxQ ((x :: xs).map (·.final_score)) = v := by
          simp only [List.map_cons, maxQ]
          refine foldl_max_const v _ _ (hall x (List.mem_cons_self x xs)) ?_
          intro a ha
          obtain ⟨c, hc, hcv⟩ := List.mem_map.mp ha
          exact hcv ▸ hall c (List.mem_cons_of_mem x hc)
        have hmin : minQ ((x :: xs).map (·.final_score)) = v := by
          simp only [List.map_cons, minQ]
          refine foldl_min_const v _ _ (hall x (List.mem_cons_self x xs)) ?_
          intro a ha
          obtain ⟨c, hc, hcv⟩ := List.mem_map.mp ha
          exact hcv ▸ hall c (List.mem_cons_of_mem x hc)
        simp only [normalizeScores]
        rw [if_neg]
        rw [hmax, hmin]
        exact lt_irrefl v
  · have h1 : minQ (batch3.map (·.final_score)) = 2/10 := by
      simp [batch3, minQ]
      norm_num
    have h2 : maxQ (batch3.map (·.final_score)) = 5/10 := by
      simp [batch3, maxQ]
      norm_num
    simp only [normalizeScores, batch3]
    rw [show (([{ final_score := 2/10 }, { final_score := 5/10 }, { final_score := 5/10 }] :
        List Context).map (·.final_score)) = [2/10, 5/10, 5/10] by rfl]
    rw [show minQ [2/10, 5/10, 5/10] = 2/10 by simp [minQ]; norm_num,
        show maxQ [2/10, 5/10, 5/10] = 5/10 by simp [maxQ]; norm_num]
    rw [if_pos (by norm_num)]
    simp [rescaleCtx]
    norm_num

/-- C4 (witness): the theorem applied to the concrete scenario batch and
to a constant batch, discharging the nonemptiness, min-below-max and
all-equal hypotheses there. -/
theorem normalize_scores_minmax_spec_witness :
    normalizeScores batch3 =
      batch3.map (rescaleCtx (minQ (batch3.map (·.final_score)))
        (maxQ (batch3.map (·.final_score)))) ∧
    normalizeScores batchConst = batchConst ∧
    (rescaleCtx 0 1 { final_score := 0 }).final_score = 0 :=
  ⟨normalize_scores_minmax_spec.1 batch3 (by simp [batch3])
      (by simp [batch3, minQ, maxQ]; norm_num),
   normalize_scores_minmax_spec.2.2.1 batchConst (7/10)
      (by intro c hc; simp [batchConst] at hc; simp [hc]),
   (normalize_scores_minmax_spec.2.1 0 1 (by norm_num)).1 _ rfl⟩

/-! ## C8: the error_handling flag on the primary (AST) path -/

/-- Is this node one of the two that switch `error_handling` on. -/
def isTryOrExcept (n : PyNode) : Bool :=
  decide (n = PyNode.tryStmt) || decide (n = PyNode.exceptHandler)

lemma analyzeStep_error_handling (c : Components) (n : PyNode) :
    (analyzeStep c n).error_handling = (c.error_handling || isTryOrExcept n) := by
  cases n with
  | callExpr nm =>
      cases nm with
      | none => simp [analyzeStep, isTryOrExcept]
      | some f =>
          simp only [analyzeStep, isTryOrExcept]
          split <;> simp
  | _ => simp [analyzeStep, isTryOrExcept]

lemma analyzeStep_try_count (c : Components) (n : PyNode) :
    (analyzeStep c n).try_count = c.try_count + (if n = PyNode.tryStmt then 1 else 0) := by
  cases n with
  | callExpr nm =>
      cases nm with
      | none => simp [analyzeStep]
      | some f => simp only [analyzeStep]; split <;> simp
  | _ => simp [analyzeStep]

lemma analyzeStep_except_count (c : Components) (n : PyNode) :
    (analyzeStep c n).except_count
      = c.except_count + (if n = PyNode.exceptHandler then 1 else 0) := by
  cases n with
  | callExpr nm =>
      cases nm with
      | none => simp [analyzeStep]
      | some f => simp only [analyzeStep]; split <;> simp
  | _ => simp [analyzeStep]

lemma analyzeFunctionBody_error_handling :
    ∀ (ns : List PyNode) (c : Components),
      (analyzeFunctionBody ns c).error_handling = (c.error_handling || ns.any isTryOrExcept) := by
  intro ns
  induction ns with
  | nil => intro c; simp [analyzeFunctionBody]
  | cons n rest ih =>
      intro c
      simp only [analyzeFunctionBody, List.foldl_cons] at *
      rw [ih, analyzeStep_error_handling]
      simp [Bool.or_assoc]

lemma analyzeFunctionBody_try_count :
    ∀ (ns : List PyNode) (c : Components),
      (analyzeFunctionBody ns c).try_count
        = c.try_count + ns.countP (fun n => decide (n = PyNode.tryStmt)) := by
  intro ns
  induction ns with
  | nil => intro c; simp [analyzeFunctionBody]
  | cons n rest ih =>
      intro c
      simp only [analyzeFunctionBody, List.foldl_cons] at *
      rw [ih, analyzeStep_try_count, List.countP_cons]
      by_cases h : n = PyNode.tryStmt <;> simp [h]
      omega

lemma analyzeFunctionBody_except_count :
    ∀ (ns : List PyNode) (c : Components),
      (analyzeFunctionBody ns c).except_count
        = c.except_count + ns.countP (fun n => decide (n = PyNode.exceptHandler)) := by
  intro ns
  induction ns with
  | nil => intro c; simp [analyzeFunctionBody]
  | cons n rest ih =>
      intro c
      simp only [analyzeFunctionBody, List.foldl_cons] at *
      rw [ih, analyzeStep_except_count, List.countP_cons]
      by_cases h : n = PyNode.exceptHandler <;> simp [h]
      omega

/-- C8 (amended): on the primary (AST) path, `_analyze_function_body`
starting from the fresh default record sets `error_handling` exactly when
it sees a `Try` node OR an `ExceptHandler` node, so afterwards
`error_handling` is true iff `try_count > 0` OR `except_count > 0` — a
disjunction, not the claimed conjunction. -/
theorem analyze_body_error_handling_disjunction (ns : List PyNode) (c : Components)
    (h1 : c.error_handling = false) (h2 : c.try_count = 0) (h3 : c.except_count = 0) :
    (analyzeFunctionBody ns c).error_handling = true ↔
      0 < (analyzeFunctionBody ns c).try_count ∨ 0 < (analyzeFunctionBody ns c).except_count := by
  rw [analyzeFunctionBody_error_handling, analyzeFunctionBody_try_count,
      analyzeFunctionBody_except_count, h1, h2, h3]
  simp only [Bool.false_or, Nat.zero_add, List.any_eq_true, List.countP_pos_iff, isTryOrExcept]
  constructor
  · rintro ⟨n, hn, hor⟩
    rcases Bool.or_eq_true_iff.mp hor with ht | he
    · exact Or.inl ⟨n, hn, ht⟩
    · exact Or.inr ⟨n, hn, he⟩
  · rintro (⟨n, hn, ht⟩ | ⟨n, hn, he⟩)
    · exact ⟨n, hn, Bool.or_eq_true_iff.mpr (Or.inl ht)⟩
    · exact ⟨n, hn, Bool.or_eq_true_iff.mpr (Or.inr he)⟩

/-- C8 (witness): the amended theorem applied to the walk of a function
containing one try statement with one handler, starting from the default
record, all hypotheses discharged by evaluation. -/
theorem analyze_body_error_handling_disjunction_witness :
    (({} : Components).error_handling = false ∧ ({} : Components).try_count = 0 ∧
      ({} : Components).except_count = 0) ∧
    ((analyzeFunctionBody [PyNode.tryStmt, PyNode.exceptHandler] {}).error_handling = true ↔
      0 < (analyzeFunctionBody [PyNode.tryStmt, PyNode.exceptHandler] {}).try_count ∨
        0 < (analyzeFunctionBody [PyNode.tryStmt, PyNode.exceptHandler] {}).except_count) :=
  ⟨⟨rfl, rfl, rfl⟩,
   analyze_body_error_handling_disjunction [PyNode.tryStmt, PyNode.exceptHandler] {} rfl rfl rfl⟩

/-- C8 (counterexample): walking a function whose body is a single
`try/finally` statement (one `Try` node, no `ExceptHandler` — e.g.
`def f():` followed by `try: g()` and `finally: h()`) yields
`try_count = 1`, `except_count = 0` and `error_handling = True`, so on the
primary path `error_handling` is NOT equivalent to
`try_count > 0 and except_count > 0`. -/
theorem error_handling_conjunction_counterexample :
    ¬ ((analyzeFunctionBody [PyNode.tryStmt] {}).error_handling = true ↔
        (0 < (analyzeFunctionBody [PyNode.tryStmt] {}).try_count ∧
          0 < (analyzeFunctionBody [PyNode.tryStmt] {}).except_count)) := by
  intro h
  have he : (analyzeFunctionBody [PyNode.tryStmt] {}).error_handling = true := rfl
  have hc := h.mp he
  have : (analyzeFunctionBody [PyNode.tryStmt] ({} : Components)).except_count = 0 := rfl
  omega

/-! ## C9: string scores and coercion -/

/-- C9 (amended): the base `Reranker.rerank` coerces a string score to a
float (parse result, safe default 0.0), and `coerceScore` always yields a
number; but the enhanced pipeline's `_preprocess_contexts` performs no
coercion at all — when no name-boost rule fires it copies the string
verbatim into `final_score`, and when a rule fires (here: exact
case-insensitive name match) the float addition on the string raises
`TypeError`, aborting the stage. -/
theorem score_coercion_base_vs_enhanced (intent : QueryIntent) (c : PyCtx) (s : List Char)
    (hs : c.score = some (PyVal.str s)) :
    coerceScore (PyVal.str s) = PyVal.num ((parseFloatQ s).getD 0) ∧
    (∀ v : PyVal, ∃ q : ℚ, coerceScore v = PyVal.num q) ∧
    (intent.function_name = [] →
      pyPreprocessCtx intent c =
        Except.ok { c with score := some (PyVal.str s), final_score := some (PyVal.str s) }) ∧
    (intent.function_name ≠ [] →
      lowerSeq c.func_name = lowerSeq intent.function_name →
      pyPreprocessCtx intent c = Except.error "TypeError: can only concatenate str to str") := by
  refine ⟨rfl, ?_, ?_, ?_⟩
  · intro v
    cases v with
    | num q => exact ⟨q, rfl⟩
    | str t => exact ⟨(parseFloatQ t).getD 0, rfl⟩
  · intro h
    simp [pyPreprocessCtx, hs, h, pure, Except.pure]
  · intro h hmatch
    simp [pyPreprocessCtx, hs, h, hmatch, pyAddFloat, Bind.bind, Except.bind]

/-- The intent and context of the coercion counterexample: the query
intent expects function name r and the context defines a function named
r, so the exact-match boost rule fires; the context's score arrived as
the text string 0.9. -/
def strScoreCtx : PyCtx :=
  { score := some (PyVal.str ['0', '.', '9']), func_name := ['r'] }

def strScoreIntent : QueryIntent := { function_name := ['r'] }

/-- C9 (witness): the amended theorem applied at the concrete string-score
context, hypotheses discharged by evaluation. -/
theorem score_coercion_base_vs_enhanced_witness :
    pyPreprocessCtx strScoreIntent strScoreCtx =
      Except.error "TypeError: can only concatenate str to str" :=
  (score_coercion_base_vs_enhanced strScoreIntent strScoreCtx ['0', '.', '9'] rfl).2.2.2
    (by decide) (by decide)

/-- C9 (counterexample): a context whose score arrives as the numeric
string 0.9 is NOT coerced by the enhanced pipeline: preprocessing it
under an exact-name-match intent raises `TypeError` (string + float), so
the score is used uncoerced and the score computation fails — the
orchestrator's blanket handler then returns the batch unprocessed. -/
theorem string_score_uncoerced_counterexample :
    pyPreprocessCtx strScoreIntent strScoreCtx =
      Except.error "TypeError: can only concatenate str to str" ∧
    strScoreCtx.score = some (PyVal.str ['0', '.', '9']) := by
  constructor
  · rfl
  · rfl

/-! ## C10: the signature scorer's substring tier is one-directional -/

lemma interCard_le_setCard {α : Type} [DecidableEq α] (a b : List α) :
    interCard a b ≤ setCard a :=
  List.length_filter_le _ _

lemma tokenOverlapSim_bounds (a b : List Char) :
    0 ≤ tokenOverlapSim a b ∧ tokenOverlapSim a b ≤ 1 := by
  by_cases h : alphaRuns a ≠ [] ∧ alphaRuns b ≠ []
  · have heq : tokenOverlapSim a b
        = (interCard (alphaRuns a) (alphaRuns b) : ℚ) / (setCard (alphaRuns a) : ℚ) := by
      simp [tokenOverlapSim, h]
    have hne : (alphaRuns a).dedup ≠ [] := by
      simpa [List.dedup_eq_nil] using h.1
    have hpos : 0 < (setCard (alphaRuns a) : ℚ) := by
      have : 0 < setCard (alphaRuns a) := List.length_pos.mpr hne
      exact_mod_cast this
    rw [heq]
    constructor
    · exact div_nonneg (by positivity) (le_of_lt hpos)
    · rw [div_le_one hpos]
      exact_mod_cast interCard_le_setCard (alphaRuns a) (alphaRuns b)
  · have heq : tokenOverlapSim a b = 0 := by
      simp only [tokenOverlapSim]
      rw [if_neg h]
    rw [heq]
    norm_num

/-- C10: when the intent's expected function name is nonempty, the two
lowercased names differ, the expected name does NOT occur inside the
context's name, and the context's name DOES occur inside the expected
name (reverse containment), the name block of the signature scorer does
not award the 0.8 substring tier: it falls through to the token-overlap
tier, contributing `weight * overlap * 0.5`, which never exceeds half the
full weight of 2. -/
theorem signature_name_substring_one_directional (ctx : Components) (intent : QueryIntent)
    (h1 : intent.function_name ≠ [])
    (h2 : lowerSeq ctx.function_name ≠ lowerSeq intent.function_name)
    (h3 : occursIn (lowerSeq intent.function_name) (lowerSeq ctx.function_name) = false)
    (_h4 : occursIn (lowerSeq ctx.function_name) (lowerSeq intent.function_name) = true) :
    (sigNameScore ctx intent).1
        = 2 * tokenOverlapSim (lowerSeq intent.function_name) (lowerSeq ctx.function_name) * (1/2) ∧
    (sigNameScore ctx intent).1 ≤ 2 * (1/2) := by
  have heq : (sigNameScore ctx intent).1
      = 2 * tokenOverlapSim (lowerSeq intent.function_name) (lowerSeq ctx.function_name) * (1/2) := by
    simp [sigNameScore, h1, h2, h3]
  refine ⟨heq, ?_⟩
  rw [heq]
  have hb := tokenOverlapSim_bounds (lowerSeq intent.function_name) (lowerSeq ctx.function_name)
  calc 2 * tokenOverlapSim (lowerSeq intent.function_name) (lowerSeq ctx.function_name) * (1/2)
      = tokenOverlapSim (lowerSeq intent.function_name) (lowerSeq ctx.function_name) := by ring
    _ ≤ 1 := hb.2
    _ = 2 * (1/2) := by norm_num

/-- The reverse-containment witness pair: the context defines
`read_file`, the intent expects `read_file_safely`. -/
def rfCtx : Components := { function_name := "read_file".data }

def rfIntent : QueryIntent := { function_name := "read_file_safely".data }

/-- C10 (witness): the theorem applied to the concrete reverse-containment
pair, all four hypotheses discharged by evaluation. -/
theorem signature_name_substring_one_directional_witness :
    (sigNameScore rfCtx rfIntent).1 ≤ 2 * (1/2) :=
  (signature_name_substring_one_directional rfCtx rfIntent
    (by decide) (by decide) (by decide) (by decide)).2

/-! ## C2: the structure similarity raises on every extractor record pair -/

lemma featSim_num_isOk (a b : ℚ) :
    ∃ q : ℚ, featSim (PyFeatVal.num a) (PyFeatVal.num b) = Except.ok q := by
  simp only [featSim, pyFeatMax, pyFeatGtZero, Bind.bind, Except.bind]
  by_cases h : (0 : ℚ) < (if a < b then b else a)
  · simp [h, pyFeatDiffSim]
  · simp [h, pure, Except.pure]

lemma featSim_lst_err (xs ys : List (List Char)) :
    featSim (PyFeatVal.lst xs) (PyFeatVal.lst ys)
      = Except.error "TypeError: unorderable types list and int" := by
  simp [featSim, pyFeatMax, pyFeatGtZero, Bind.bind, Except.bind]

lemma structFeatLoop_err :
    ∀ (ps : List (PyFeatVal × PyFeatVal)) (s t : ℚ) (xs ys : List (List Char)),
      (∀ p ∈ ps, ∃ a b : ℚ, p = (PyFeatVal.num a, PyFeatVal.num b)) →
      structFeatLoop (ps ++ [(PyFeatVal.lst xs, PyFeatVal.lst ys)]) s t
        = Except.error "TypeError: unorderable types list and int" := by
  intro ps
  induction ps with
  | nil =>
      intro s t xs ys _
      simp [structFeatLoop, featSim_lst_err, Bind.bind, Except.bind]
  | cons p rest ih =>
      intro s t xs ys h
      obtain ⟨a, b, hp⟩ := h p (List.mem_cons_self p rest)
      subst hp
      obtain ⟨q, hq⟩ := featSim_num_isOk a b
      simp only [List.cons_append, structFeatLoop, Bind.bind, Except.bind, hq]
      exact ih _ _ xs ys (fun p hp => h p (List.mem_cons_of_mem _ hp))

/-- C2: `compute_structure_similarity` is NOT total on extractor-produced
feature records: its control-flow feature list includes `function_calls`,
whose value is a list of names in every record the component extractor
builds, and the comparison `max_value > 0` on that feature raises
`TypeError` — for EVERY pair of such records, before any score is
returned.  (The similarity computations of the signature and semantic
scorers do satisfy the totality/range contract; this theorem documents
where the code breaks it.)  The raise is caught by the blanket handler in
`CodeStructureReranker.rerank`, which returns the contexts unchanged. -/
theorem structure_similarity_raises_type_error (ctx ans : Components) :
    computeStructureSimilarity ctx ans
      = Except.error "TypeError: unorderable types list and int" := by
  have hzip : (structControlFeats ctx).zip (structControlFeats ans)
      = [(PyFeatVal.num ctx.if_count, PyFeatVal.num ans.if_count),
         (PyFeatVal.num ctx.else_count, PyFeatVal.num ans.else_count),
         (PyFeatVal.num ctx.for_count, PyFeatVal.num ans.for_count),
         (PyFeatVal.num ctx.while_count, PyFeatVal.num ans.while_count),
         (PyFeatVal.num ctx.try_count, PyFeatVal.num ans.try_count),
         (PyFeatVal.num ctx.except_count, PyFeatVal.num ans.except_count)]
        ++ [(PyFeatVal.lst ctx.function_calls, PyFeatVal.lst ans.function_calls)] := by
    simp [structControlFeats]
  have hloop := structFeatLoop_err
    [(PyFeatVal.num ctx.if_count, PyFeatVal.num ans.if_count),
     (PyFeatVal.num ctx.else_count, PyFeatVal.num ans.else_count),
     (PyFeatVal.num ctx.for_count, PyFeatVal.num ans.for_count),
     (PyFeatVal.num ctx.while_count, PyFeatVal.num ans.while_count),
     (PyFeatVal.num ctx.try_count, PyFeatVal.num ans.try_count),
     (PyFeatVal.num ctx.except_count, PyFeatVal.num ans.except_count)]
    0 0 ctx.function_calls ans.function_calls ?_
  · simp only [computeStructureSimilarity, hzip, Bind.bind, Except.bind, hloop]
  · intro p hp
    fin_cases hp <;> exact ⟨_, _, rfl⟩
